import Mathlib

/-!
Verification of the gitignore generator (`gitignore.py`).

Python strings are modelled as `String` / `List Char`; the helpers below
reproduce the CPython semantics of the string operations the script uses
(`str.strip`, `str.splitlines`, `str.split`, `str.lower`, `str.replace`).
The filesystem is modelled by the optional content of `<path>/.gitignore`
(`none` = the file does not exist), stdin by the answer string the
confirmation prompt would read, and the network by an `Except` value
carrying either the HTTP response body or an error.
-/

namespace Gitignore

/-- Whitespace characters of CPython (`Py_UNICODE_ISSPACE`), as used by
`str.strip` and no-argument `str.split`. -/
def isPySpace (c : Char) : Bool :=
  (9 ≤ c.toNat && c.toNat ≤ 13) || (28 ≤ c.toNat && c.toNat ≤ 31) ||
  c.toNat = 32 || c.toNat = 0x85 || c.toNat = 0xA0 || c.toNat = 0x1680 ||
  (0x2000 ≤ c.toNat && c.toNat ≤ 0x200A) ||
  c.toNat = 0x2028 || c.toNat = 0x2029 || c.toNat = 0x202F ||
  c.toNat = 0x205F || c.toNat = 0x3000

/-- Line-boundary characters of CPython `str.splitlines`. -/
def isLineBoundary (c : Char) : Bool :=
  c.toNat = 10 || c.toNat = 11 || c.toNat = 12 || c.toNat = 13 ||
  c.toNat = 28 || c.toNat = 29 || c.toNat = 30 ||
  c.toNat = 0x85 || c.toNat = 0x2028 || c.toNat = 0x2029

/-- CPython `str.strip()` (no argument): drop whitespace from both ends. -/
def pyStripL (cs : List Char) : List Char :=
  ((cs.dropWhile isPySpace).reverse.dropWhile isPySpace).reverse

/-- `str.strip()` on `String`. -/
def pyStrip (s : String) : String :=
  ⟨pyStripL s.data⟩

/-- `str.lower()` restricted to ASCII case mapping (the script only compares
the result against the ASCII letter "y"). -/
def pyLower (s : String) : String :=
  ⟨s.data.map Char.toLower⟩

/-- Worker for `str.splitlines`: `acc` holds the current (reversed) line.
A `"\r\n"` pair counts as a single boundary; a trailing boundary does not
produce a final empty line. -/
def splitlinesAux : List Char → List Char → List (List Char)
  | [], acc => [acc.reverse]
  | '\r' :: '\n' :: rest, acc =>
      acc.reverse :: (if rest.isEmpty then [] else splitlinesAux rest [])
  | c :: rest, acc =>
      if isLineBoundary c then
        acc.reverse :: (if rest.isEmpty then [] else splitlinesAux rest [])
      else
        splitlinesAux rest (c :: acc)

/-- CPython `str.splitlines()` on a character list (`"".splitlines() == []`). -/
def splitlinesL (cs : List Char) : List (List Char) :=
  if cs.isEmpty then [] else splitlinesAux cs []

/-- CPython `str.split(sep)` with a one-character separator: keeps empty
fields, `"".split(sep) == [""]`. -/
def splitOnChar (sep : Char) : List Char → List (List Char)
  | [] => [[]]
  | c :: rest =>
      if c = sep then
        [] :: splitOnChar sep rest
      else
        match splitOnChar sep rest with
        | h :: t => (c :: h) :: t
        | [] => [[c]]

/-- Worker for no-argument `str.split()`: split on whitespace runs,
discarding empty fields. -/
def splitWSAux : List Char → List Char → List (List Char)
  | [], acc => if acc.isEmpty then [] else [acc.reverse]
  | c :: rest, acc =>
      if isPySpace c then
        if acc.isEmpty then splitWSAux rest [] else acc.reverse :: splitWSAux rest []
      else
        splitWSAux rest (c :: acc)

/-- CPython no-argument `str.split()`. -/
def splitWS (cs : List Char) : List (List Char) :=
  splitWSAux cs []

/-- `str.replace("\\", "/")`: replacing a one-character needle is a map. -/
def replaceBS (cs : List Char) : List Char :=
  cs.map fun c => if c = '\\' then '/' else c

/-- Python `"\n".join(entries)`. -/
def joinNL : List String → String
  | [] => ""
  | [x] => x
  | x :: xs => x ++ "\n" ++ joinNL xs

-- sanity checks of the Python-semantics helpers
example : pyStrip "  a b \n" = "a b" := by decide
example : splitlinesL "a \nb".data = [['a', ' '], ['b']] := by decide
example : splitlinesL "a\r\n".data = [['a']] := by decide
example : splitlinesL "".data = [] := by decide
example : splitOnChar ',' "a,,b".data = [['a'], [], ['b']] := by decide
example : splitWS "  a  b ".data = [['a'], ['b']] := by decide
example : joinNL ["a", "b", "c"] = "a\nb\nc" := by decide

/-- `GitignoreGenerator.DEFAULT_ENTRIES`. -/
def DEFAULT_ENTRIES : List String := [
  "*.pyc", "*.bak", "*.zip", "*.rar", "*.7z", "*.mp3", "*.wav", "*.sublime-workspace",
  ".hg/", "build/", "*.hgignore", "*.hgtags", "*dist/", "*.egg-info/", "traceback.log",
  "__pycache__/", "*.log"
]

/-- The URL `fetch_template` requests (template names joined by commas onto
the fixed endpoint). -/
def fetch_url (templates : List String) : String :=
  "https://www.toptal.com/developers/gitignore/api/" ++
    String.intercalate "," templates

/-- `GitignoreGenerator.fetch_template`, with the network modelled as an
`Except` carrying either the decoded response body or an error message.
On success the whole body is stripped and split into lines
(`content.strip().splitlines()`); on any failure the except-branch reports
and returns the empty list, so no exception escapes the call. -/
def fetch_template (resp : Except String String) : List String :=
  match resp with
  | .ok content => (splitlinesL (pyStripL content.data)).map fun l => ⟨l⟩
  | .error _ => []

/-- Outcome of one `GitignoreGenerator.generate` call: the resulting
`.gitignore` content (`none` = still absent), whether the overwrite prompt
was shown, and whether the run was canceled at that prompt. -/
structure GenResult where
  file : Option String
  prompted : Bool
  canceled : Bool
deriving Repr, DecidableEq

/-- Entry assembly at the top of `generate`: `entries = []`, then
`if templates: entries += fetch_template(templates)` (here `fetched` is the
value that call returns), then `entries += cls.DEFAULT_ENTRIES`, then
`if extra_entries: entries += extra_entries`. -/
def assemble (templates : Option (List String)) (fetched : List String)
    (extra_entries : Option (List String)) : List String :=
  (match templates with
   | some ts => if ts.isEmpty then [] else fetched
   | none => []) ++
  DEFAULT_ENTRIES ++
  (match extra_entries with
   | some es => if es.isEmpty then [] else es
   | none => [])

/-- The writing half of `generate`: `content = "\n".join(entries) + "\n"`;
if `append and gitignore_path.exists()` open in append mode and write
`"\n" + content`, otherwise `write_text(content)`. -/
def write_step (entries : List String) (append : Bool) (file : Option String)
    (prompted : Bool) : GenResult :=
  match file, append with
  | some old, true =>
      { file := some (old ++ "\n" ++ (joinNL entries ++ "\n")),
        prompted := prompted, canceled := false }
  | _, _ =>
      { file := some (joinNL entries ++ "\n"),
        prompted := prompted, canceled := false }

/-- `GitignoreGenerator.generate`. `file` is the current content of
`<path>/.gitignore` (`none` when absent), `answer` the line the interactive
prompt would read, `fetched` the value `fetch_template` returns when it is
called. The prompt fires when the file exists and neither `force` nor
`append` is set; the answer is accepted via `.strip().lower() == 'y'`. -/
def generate (templates : Option (List String)) (fetched : List String)
    (extra_entries : Option (List String)) (append force : Bool)
    (file : Option String) (answer : String) : GenResult :=
  if file.isSome && !force && !append then
    if pyLower (pyStrip answer) = "y" then
      write_step (assemble templates fetched extra_entries) append file true
    else
      { file := file, prompted := true, canceled := true }
  else
    write_step (assemble templates fetched extra_entries) append file false

/-- The free-form positional-entries block of `main` (the chain of
`if "," in args.entries ... else args.data.append(args.entries)`), returning
the list of entries appended to `args.data`. Backslashes are replaced by
slashes first; then the first matching rule of the delimiter chain wins. -/
def normalize_entries (entries : String) : List String :=
  (fun e : List Char =>
    if e.contains ',' then (splitOnChar ',' e).map fun l => (⟨l⟩ : String)
    else if e.contains '\n' then (splitlinesL e).map fun l => (⟨l⟩ : String)
    else if e.contains ';' then (splitOnChar ';' e).map fun l => (⟨l⟩ : String)
    else if e.contains ':' then (splitOnChar ':' e).map fun l => (⟨l⟩ : String)
    else if e.contains '|' then (splitOnChar '|' e).map fun l => (⟨l⟩ : String)
    else if e.contains ' ' then (splitWS e).map fun l => (⟨l⟩ : String)
    else if e.head? = some '[' && e.getLast? = some ']' then
      (splitOnChar ',' (e.drop 1).dropLast).map fun l => (⟨l⟩ : String)
    else if e.head? = some (Char.ofNat 0x7b) && e.getLast? = some (Char.ofNat 0x7d) then
      (splitOnChar ',' (e.drop 1).dropLast).map fun l => (⟨l⟩ : String)
    else if e.head? = some '"' && e.getLast? = some '"' then
      [(⟨(e.drop 1).dropLast⟩ : String)]
    else if e.head? = some (Char.ofNat 0x27) && e.getLast? = some (Char.ofNat 0x27) then
      [(⟨(e.drop 1).dropLast⟩ : String)]
    else if e.head? = some (Char.ofNat 0x60) && e.getLast? = some (Char.ofNat 0x60) then
      [(⟨(e.drop 1).dropLast⟩ : String)]
    else if (pyStripL e).isEmpty = false then
      [(⟨pyStripL e⟩ : String)]
    else
      [(⟨e⟩ : String)])
  (replaceBS entries.data)

/-- The parsed command-line arguments `main` works with (presentation-only
fields such as the target path are omitted; `entries` is the optional
free-form positional argument, `data` the repeatable `-d` values). -/
structure Args where
  entries : Option String
  data : List String
  template : Option (List String)
  append : Bool
  force : Bool
  read : Bool
deriving Repr, DecidableEq

/-- The `if args.entries:` block of `main`: a truthy (non-empty) positional
entries string forces `args.append = True`, rewrites backslashes in
`args.entries`, and extends `args.data` with the normalized entries. -/
def process_entries (a : Args) : Args :=
  match a.entries with
  | some e =>
      if e = "" then a
      else
        { a with
          append := true,
          entries := some ⟨replaceBS e.data⟩,
          data := a.data ++ normalize_entries e }
  | none => a

/-- Outcome of `GitignoreGenerator.read_gitignore`: what is displayed
(`none` = the not-found error) and the file state afterwards. -/
structure ReadResult where
  displayed : Option String
  file : Option String
deriving Repr, DecidableEq

/-- `GitignoreGenerator.read_gitignore`: missing file reports not-found and
returns; otherwise the content is read and displayed verbatim. The file
state is passed through untouched in both cases. -/
def read_gitignore (file : Option String) : ReadResult :=
  match file with
  | none => { displayed := none, file := none }
  | some c => { displayed := some c, file := some c }

/-- The tail of `main` after parsing: process the positional entries, then
either dispatch to `read_gitignore` and return, or call `generate` with the
processed flags. Returns the resulting `.gitignore` content. -/
def main_run (a : Args) (fetched : List String) (file : Option String)
    (answer : String) : Option String :=
  if (process_entries a).read then
    (read_gitignore file).file
  else
    (generate (process_entries a).template fetched
      (some (process_entries a).data) (process_entries a).append
      (process_entries a).force file answer).file

-- sanity checks against hand-evaluated Python behaviour
example : normalize_entries "a,b,c" = ["a", "b", "c"] := by decide
example : normalize_entries "[a,b]" = ["[a", "b]"] := by decide
example : normalize_entries "a\\b" = ["a/b"] := by decide
example : fetch_template (.ok "a \nb") = ["a ", "b"] := by decide
example :
    generate none [] (some ["x"]) false false none "" =
      { file := some (joinNL DEFAULT_ENTRIES ++ "\nx\n"), prompted := false,
        canceled := false } := by decide

/-! Helper lemmas shared by the claim theorems. -/

/-- The file content a non-canceled `generate` run ends with: in append mode
on an existing file the old content, a separating newline, then the joined
entries with one trailing newline; otherwise just the latter. -/
def expected_file (file : Option String) (append : Bool)
    (entries : List String) : String :=
  match file, append with
  | some old, true => old ++ "\n" ++ (joinNL entries ++ "\n")
  | _, _ => joinNL entries ++ "\n"

/-- The file content produced by the writing half of `generate`, in both the
append-to-existing and the overwrite/create cases. -/
theorem write_step_file (entries : List String) (append : Bool)
    (file : Option String) (prompted : Bool) :
    (write_step entries append file prompted).file =
      some (expected_file file append entries) := by
  cases file <;> cases append <;> rfl

/-- With a non-empty template list and a concrete extra list, `assemble`
is plain concatenation in the fixed order. -/
theorem assemble_some_some (ts T E : List String) (hts : ts ≠ []) :
    assemble (some ts) T (some E) = T ++ DEFAULT_ENTRIES ++ E := by
  unfold assemble
  rcases ts with _ | ⟨t, ts⟩
  · exact absurd rfl hts
  · rcases E with _ | ⟨e, E⟩ <;> simp

/-- Whenever a `generate` call is not canceled at the prompt, the resulting
file holds the assembled content, appended after the old content and a
separating newline in append mode. -/
theorem generate_file_of_not_canceled (tpl : Option (List String))
    (fetched : List String) (extra : Option (List String))
    (append force : Bool) (file : Option String) (answer : String)
    (hw : (generate tpl fetched extra append force file answer).canceled = false) :
    (generate tpl fetched extra append force file answer).file =
      some (expected_file file append (assemble tpl fetched extra)) := by
  unfold generate at hw ⊢
  by_cases h1 : (file.isSome && !force && !append) = true
  · simp only [h1, if_true] at hw ⊢
    by_cases h2 : pyLower (pyStrip answer) = "y"
    · simp only [if_pos h2] at hw ⊢
      exact write_step_file ..
    · simp only [if_neg h2] at hw
      exact absurd hw (by simp)
  · simp only [h1, if_false] at hw ⊢
    exact write_step_file ..

/-! Claim theorems. -/

/-- C1: for every list of fetched template lines `T`, extra entries `E`, and
any flags, whenever `generate` writes (is not canceled at the prompt), the
content it writes is exactly `T ++ DEFAULT_ENTRIES ++ E` in that order,
joined by newline with exactly one trailing newline — no deduplication,
sorting, or validation (in append mode that content follows the preserved
old content and a separating newline). -/
theorem generate_content_is_templates_defaults_extras
    (ts T E : List String) (append force : Bool) (file : Option String)
    (answer : String) (hts : ts ≠ [])
    (hw : (generate (some ts) T (some E) append force file answer).canceled = false) :
    (generate (some ts) T (some E) append force file answer).file =
      some (expected_file file append (T ++ DEFAULT_ENTRIES ++ E)) := by
  have h := generate_file_of_not_canceled (some ts) T (some E) append force file answer hw
  rwa [assemble_some_some ts T E hts] at h

/-- Witness for C1: a fresh write with two template lines and one extra. -/
theorem generate_content_is_templates_defaults_extras_witness :
    (generate (some ["python"]) ["tpl1", "tpl2"] (some ["extra1"]) false true
        (some "old") "n").file =
      some (joinNL (["tpl1", "tpl2"] ++ DEFAULT_ENTRIES ++ ["extra1"]) ++ "\n") :=
  generate_content_is_templates_defaults_extras ["python"] ["tpl1", "tpl2"]
    ["extra1"] false true (some "old") "n" (by decide) (by decide)

/-- C2: with `append = true` on an existing file with content `C`, `generate`
never prompts and produces `C ++ "\n" ++ joined entries ++ "\n"`, preserving
`C` unmodified. -/
theorem generate_append_preserves_existing (tpl : Option (List String))
    (T : List String) (E : Option (List String)) (C : String) (force : Bool)
    (answer : String) :
    generate tpl T E true force (some C) answer =
      { file := some (C ++ "\n" ++ (joinNL (assemble tpl T E) ++ "\n")),
        prompted := false, canceled := false } := by
  cases force <;> rfl

/-- C3: with `force = true` and `append = false` on an existing file,
`generate` does not prompt and overwrites with exactly the joined entries
plus one trailing newline, discarding the old content. -/
theorem generate_force_overwrites (tpl : Option (List String))
    (T : List String) (E : Option (List String)) (C : String)
    (answer : String) :
    generate tpl T E false true (some C) answer =
      { file := some (joinNL (assemble tpl T E) ++ "\n"),
        prompted := false, canceled := false } := by
  rfl

/-- C4: with `force = false` and `append = false` on an existing file,
`generate` prompts; the write proceeds exactly when the stripped, lowercased
answer is `"y"`, and any other answer cancels with the file unchanged. -/
theorem generate_prompt_gates_overwrite (tpl : Option (List String))
    (T : List String) (E : Option (List String)) (C : String)
    (answer : String) :
    generate tpl T E false false (some C) answer =
      (if pyLower (pyStrip answer) = "y" then
        { file := some (joinNL (assemble tpl T E) ++ "\n"),
          prompted := true, canceled := false }
      else
        { file := some C, prompted := true, canceled := true }) := by
  rfl

/-- C5: a failed fetch returns the empty list (the exception is caught
inside `fetch_template`, so nothing propagates into `generate`), and the
content then written holds exactly `DEFAULT_ENTRIES ++ extras`, with no
template lines. -/
theorem fetch_failure_writes_defaults_only (err : String) (ts E : List String)
    (append force : Bool) (file : Option String) (answer : String)
    (hts : ts ≠ [])
    (hw : (generate (some ts) (fetch_template (.error err)) (some E)
            append force file answer).canceled = false) :
    fetch_template (.error err) = [] ∧
    (generate (some ts) (fetch_template (.error err)) (some E)
        append force file answer).file =
      some (expected_file file append (DEFAULT_ENTRIES ++ E)) := by
  refine ⟨rfl, ?_⟩
  have h := generate_file_of_not_canceled _ _ _ _ _ _ _ hw
  rw [assemble_some_some ts _ E hts] at h
  simpa [fetch_template] using h

/-- Witness for C5: fetch fails, fresh write, file holds defaults plus the
extra entry. -/
theorem fetch_failure_writes_defaults_only_witness :
    fetch_template (.error "boom") = [] ∧
    (generate (some ["python"]) (fetch_template (.error "boom")) (some ["x"])
        false false none "").file =
      some (joinNL (DEFAULT_ENTRIES ++ ["x"]) ++ "\n") :=
  fetch_failure_writes_defaults_only "boom" ["python"] ["x"] false false none ""
    (by decide) (by decide)

/-- Every line-boundary character is Python whitespace, so `strip` removes
trailing boundaries. -/
theorem isPySpace_of_isLineBoundary (c : Char) (h : isLineBoundary c = true) :
    isPySpace c = true := by
  simp [isLineBoundary] at h
  simp [isPySpace]
  omega

/-- Splitting drops exactly the boundary characters: the flattened segments
are the non-boundary characters in their original order. -/
theorem splitlinesAux_flatten (cs acc : List Char) :
    (splitlinesAux cs acc).flatten =
      acc.reverse ++ cs.filter (fun c => !isLineBoundary c) := by
  induction cs, acc using splitlinesAux.induct with
  | case1 acc => simp [splitlinesAux]
  | case2 rest acc ih =>
      rcases eq_or_ne rest [] with h | h
      · subst h; simp [splitlinesAux, isLineBoundary]
      · simp [splitlinesAux, List.isEmpty_iff, h, ih, isLineBoundary]
  | case3 c rest acc hne h ih =>
      rcases eq_or_ne rest [] with hr | hr
      · subst hr; simp [splitlinesAux, hne, h]
      · simp [splitlinesAux, hne, h, ih, List.isEmpty_iff, hr]
  | case4 c rest acc hne h ih =>
      simp [splitlinesAux, hne, h, ih]

/-- `splitlinesL` version of `splitlinesAux_flatten`. -/
theorem splitlinesL_flatten (cs : List Char) :
    (splitlinesL cs).flatten = cs.filter (fun c => !isLineBoundary c) := by
  rcases eq_or_ne cs [] with h | h
  · subst h; simp [splitlinesL]
  · simp [splitlinesL, List.isEmpty_iff, h, splitlinesAux_flatten]

/-- `splitlinesAux` always returns at least one line. -/
theorem splitlinesAux_ne_nil (cs acc : List Char) : splitlinesAux cs acc ≠ [] := by
  induction cs, acc using splitlinesAux.induct with
  | case1 acc => simp [splitlinesAux]
  | case2 rest acc ih => simp [splitlinesAux]
  | case3 c rest acc hne h ih => simp [splitlinesAux, hne, h]
  | case4 c rest acc hne h ih => simpa [splitlinesAux, hne, h] using ih

/-- When the input does not end in a line boundary, the final segment of the
split ends in the input's final character. -/
theorem splitlinesAux_getLast (cs acc : List Char)
    (hB : ∀ c, (acc.reverse ++ cs).getLast? = some c → isLineBoundary c = false) :
    ∀ l, (splitlinesAux cs acc).getLast? = some l →
      l.getLast? = (acc.reverse ++ cs).getLast? := by
  induction cs, acc using splitlinesAux.induct with
  | case1 acc =>
      intro l hl
      simp [splitlinesAux] at hl
      subst hl
      simp
  | case2 rest acc ih =>
      rcases eq_or_ne rest [] with h | h
      · subst h
        have hlast : (acc.reverse ++ ['\r', '\n']).getLast? = some '\n' := by
          rw [List.getLast?_append_of_ne_nil _ (by simp)]; rfl
        have := hB '\n' hlast
        simp [isLineBoundary] at this
      · intro l hl
        have hwhole : (acc.reverse ++ '\r' :: '\n' :: rest).getLast? = rest.getLast? := by
          rw [List.getLast?_append_of_ne_nil _ (by simp)]
          rcases rest with _ | ⟨r, rs⟩
          · exact absurd rfl h
          · rw [List.getLast?_cons_cons, List.getLast?_cons_cons]
        rw [hwhole]
        have heq : splitlinesAux ('\r' :: '\n' :: rest) acc =
            acc.reverse :: splitlinesAux rest [] := by
          simp [splitlinesAux, List.isEmpty_iff, h]
        rw [heq] at hl
        rcases hsa2 : splitlinesAux rest [] with _ | ⟨x, xs⟩
        · exact absurd hsa2 (splitlinesAux_ne_nil rest [])
        · rw [hsa2, List.getLast?_cons_cons] at hl
          have hB2 : ∀ c, (([] : List Char).reverse ++ rest).getLast? = some c →
              isLineBoundary c = false := by
            intro c hc
            exact hB c (by rw [hwhole]; simpa using hc)
          have := ih hB2 l (by rw [hsa2]; exact hl)
          simpa using this
  | case3 c rest acc hne h ih =>
      rcases eq_or_ne rest [] with hr | hr
      · subst hr
        have hlast : (acc.reverse ++ [c]).getLast? = some c := by
          rw [List.getLast?_append_of_ne_nil _ (by simp)]; rfl
        have := hB c hlast
        rw [h] at this
        cases this
      · intro l hl
        have hwhole : (acc.reverse ++ c :: rest).getLast? = rest.getLast? := by
          rw [List.getLast?_append_of_ne_nil _ (by simp)]
          rcases rest with _ | ⟨r, rs⟩
          · exact absurd rfl hr
          · exact List.getLast?_cons_cons
        rw [hwhole]
        have heq : splitlinesAux (c :: rest) acc =
            acc.reverse :: splitlinesAux rest [] := by
          simp [splitlinesAux, hne, h, List.isEmpty_iff, hr]
        rw [heq] at hl
        rcases hsa : splitlinesAux rest [] with _ | ⟨x, xs⟩
        · exact absurd hsa (splitlinesAux_ne_nil rest [])
        · rw [hsa, List.getLast?_cons_cons] at hl
          have hB2 : ∀ d, (([] : List Char).reverse ++ rest).getLast? = some d →
              isLineBoundary d = false := by
            intro d hd
            exact hB d (by rw [hwhole]; simpa using hd)
          have := ih hB2 l (by rw [hsa]; exact hl)
          simpa using this
  | case4 c rest acc hne h ih =>
      intro l hl
      have heq : splitlinesAux (c :: rest) acc = splitlinesAux rest (c :: acc) := by
        simp [splitlinesAux, hne, h]
      rw [heq] at hl
      have hacc : (c :: acc).reverse ++ rest = acc.reverse ++ c :: rest := by simp
      have hB2 : ∀ d, ((c :: acc).reverse ++ rest).getLast? = some d →
          isLineBoundary d = false := by
        rw [hacc]; exact hB
      have := ih hB2 l hl
      rw [hacc] at this
      exact this

/-- If the head of `dropWhile p` exists, it fails `p`. -/
theorem head_dropWhile_not (p : Char → Bool) (l : List Char) :
    ∀ a, (l.dropWhile p).head? = some a → p a = false := by
  induction l with
  | nil => simp
  | cons x xs ih =>
      intro a h
      by_cases hp : p x
      · rw [List.dropWhile_cons_of_pos hp] at h
        exact ih a h
      · rw [List.dropWhile_cons_of_neg hp] at h
        simp only [List.head?_cons, Option.some.injEq] at h
        subst h
        simpa using hp

/-- The stripped body never ends in whitespace. -/
theorem pyStripL_getLast (cs : List Char) :
    ∀ c, (pyStripL cs).getLast? = some c → isPySpace c = false := by
  intro c hc
  unfold pyStripL at hc
  rw [List.getLast?_reverse] at hc
  exact head_dropWhile_not isPySpace _ c hc

-- C6 material

/-- C6 counterexample: the strip is applied to the whole body before
splitting, so the interior line keeps its trailing space: the body
consisting of the line containing the letter a followed by a space, then
the line b, fetches as exactly those two lines, the first ending in
whitespace. -/
theorem fetch_template_keeps_interior_trailing_ws :
    fetch_template (.ok "a \nb") = ["a ", "b"] ∧
    "a ".data.getLast? = some ' ' ∧ isPySpace ' ' = true := by decide

/-- C6 amended: on success `fetch_template` strips whitespace from the two
ends of the whole body only and then splits into lines: the returned lines,
concatenated in order, are exactly the stripped body minus its line-boundary
characters, and the final returned line never ends in whitespace — but
interior lines may retain trailing whitespace. -/
theorem fetch_template_strips_whole_body (body : String) :
    ((fetch_template (.ok body)).map String.data).flatten =
      (pyStripL body.data).filter (fun c => !isLineBoundary c) ∧
    (∀ l, (fetch_template (.ok body)).getLast? = some l →
      ∀ c, l.data.getLast? = some c → isPySpace c = false) := by
  constructor
  · show ((((splitlinesL (pyStripL body.data)).map fun l => (⟨l⟩ : String)).map
        String.data).flatten) = _
    rw [List.map_map]
    have : (String.data ∘ fun l : List Char => (⟨l⟩ : String)) = id := rfl
    rw [this, List.map_id]
    exact splitlinesL_flatten _
  · intro l hl c hc
    have hmap : (fetch_template (.ok body)).getLast? =
        ((splitlinesL (pyStripL body.data)).getLast?).map fun l => (⟨l⟩ : String) :=
      List.getLast?_map _ _
    rcases hsl : (splitlinesL (pyStripL body.data)).getLast? with _ | l₀
    · rw [hmap, hsl] at hl
      cases hl
    · rw [hmap, hsl] at hl
      have hl' : (⟨l₀⟩ : String) = l := by simpa using hl
      subst hl'
      unfold splitlinesL at hsl
      rcases eq_or_ne (pyStripL body.data) [] with hz | hz
      · rw [hz] at hsl
        simp at hsl
      · rw [if_neg (by simpa [List.isEmpty_iff] using hz)] at hsl
        have hB : ∀ d, (([] : List Char).reverse ++ pyStripL body.data).getLast? =
            some d → isLineBoundary d = false := by
          intro d hd
          have hs := pyStripL_getLast body.data d (by simpa using hd)
          cases hb : isLineBoundary d
          · rfl
          · exact absurd (isPySpace_of_isLineBoundary d hb) (by simp [hs])
        have := splitlinesAux_getLast (pyStripL body.data) [] hB l₀ hsl
        simp only [List.reverse_nil, List.nil_append] at this
        have hc' : (pyStripL body.data).getLast? = some c := by
          rw [← this]
          exact hc
        exact pyStripL_getLast body.data c hc'

/-- Witness for C6 amended, at the counterexample body: the concatenation
property holds and the final line b ends in the non-whitespace character b. -/
theorem fetch_template_strips_whole_body_witness :
    ((fetch_template (.ok "a \nb")).map String.data).flatten =
      (pyStripL "a \nb".data).filter (fun c => !isLineBoundary c) ∧
    isPySpace 'b' = false :=
  ⟨(fetch_template_strips_whole_body "a \nb").1,
    (fetch_template_strips_whole_body "a \nb").2 "b" (by decide) 'b' (by decide)⟩

/-- C7 counterexample: the bracketed input `[a,b]` contains a comma, so the
comma rule (highest priority) fires before the bracket-stripping rule ever
runs: the normalizer yields the two entries `[a` and `b]`, not `a` and `b`
as the claim states. -/
theorem normalize_entries_bracket_comma_counterexample :
    normalize_entries "[a,b]" = ["[a", "b]"] ∧
    normalize_entries "[a,b]" ≠ ["a", "b"] := by decide

/-- C7 amended: the normalizer replaces backslashes with slashes first, then
applies the first matching rule of the priority chain (comma, newline,
semicolon, colon, pipe, whitespace, bracket strip plus comma split, quote
strip, trim, identity) to the whole string; since the comma rule precedes
bracket stripping, `[a,b]` yields `[a` and `b]`, while bracket stripping
applies only to comma-free bracketed strings such as `[ab]`. -/
theorem normalize_entries_policy :
    normalize_entries "a,b,c" = ["a", "b", "c"] ∧
    normalize_entries "a b c" = ["a", "b", "c"] ∧
    normalize_entries "a\nb" = ["a", "b"] ∧
    normalize_entries "a;b" = ["a", "b"] ∧
    normalize_entries "a:b" = ["a", "b"] ∧
    normalize_entries "a|b" = ["a", "b"] ∧
    normalize_entries "a,b c" = ["a", "b c"] ∧
    normalize_entries "a\nb;c" = ["a", "b;c"] ∧
    normalize_entries "a;b:c" = ["a", "b:c"] ∧
    normalize_entries "a:b|c" = ["a", "b|c"] ∧
    normalize_entries "a|b c" = ["a", "b c"] ∧
    normalize_entries "[a b]" = ["[a", "b]"] ∧
    normalize_entries "[a,b]" = ["[a", "b]"] ∧
    normalize_entries "[ab]" = ["ab"] ∧
    normalize_entries "\x7bab\x7d" = ["ab"] ∧
    normalize_entries "\"a\"" = ["a"] ∧
    normalize_entries "\x27a\x27" = ["a"] ∧
    normalize_entries "\x60a\x60" = ["a"] ∧
    normalize_entries "\ta\t" = ["a"] ∧
    normalize_entries "\t\t" = ["\t\t"] ∧
    normalize_entries "a\\b" = ["a/b"] ∧
    normalize_entries "a\\b,c" = ["a/b", "c"] := by decide

/-- C8: whenever the free-form positional entries argument is provided and
non-empty, `main` sets the append flag to true unconditionally — whatever
the explicit append flag held — and leaves the force flag untouched. -/
theorem positional_entries_force_append (a : Args) (e : String)
    (he : a.entries = some e) (hne : e ≠ "") :
    (process_entries a).append = true ∧ (process_entries a).force = a.force := by
  have h : process_entries a =
      { a with
        append := true,
        entries := some ⟨replaceBS e.data⟩,
        data := a.data ++ normalize_entries e } := by
    unfold process_entries
    rw [he]
    exact if_neg hne
  rw [h]
  exact ⟨rfl, rfl⟩

/-- Witness for C8: positional entries `x` with append and force both
explicitly false still produce append = true and force = false. -/
theorem positional_entries_force_append_witness :
    (process_entries { entries := some "x", data := [], template := none, append := false, force := false, read := false }).append = true ∧
    (process_entries { entries := some "x", data := [], template := none, append := false, force := false, read := false }).force = false :=
  positional_entries_force_append
    { entries := some "x", data := [], template := none, append := false,
      force := false, read := false } "x" rfl (by decide)

/-- The positional-entries block of `main` never changes the read flag. -/
theorem process_entries_read (a : Args) : (process_entries a).read = a.read := by
  unfold process_entries
  rcases a.entries with _ | e
  · rfl
  · by_cases he : e = "" <;> simp [he]

/-- C9: with the read flag set the run performs zero writes — the
`.gitignore` state after `main` equals the state before, whether or not the
file exists — and `read_gitignore` displays the existing content verbatim
(`none` is the not-found report). -/
theorem read_run_never_writes (a : Args) (fetched : List String)
    (file : Option String) (answer : String) (hr : a.read = true) :
    main_run a fetched file answer = file ∧
    (read_gitignore file).file = file ∧
    (read_gitignore file).displayed = file := by
  have hr2 : (process_entries a).read = true := by rw [process_entries_read, hr]
  refine ⟨?_, ?_, ?_⟩
  · unfold main_run
    rw [if_pos hr2]
    cases file <;> rfl
  · cases file <;> rfl
  · cases file <;> rfl

/-- Witness for C9: a read-flag run over an existing file with content keep
leaves it byte-for-byte unchanged and displays it. -/
theorem read_run_never_writes_witness :
    main_run { entries := none, data := [], template := none, append := false, force := false, read := true } [] (some "keep") "" = some "keep" ∧
    (read_gitignore (some "keep")).file = some "keep" ∧
    (read_gitignore (some "keep")).displayed = some "keep" :=
  read_run_never_writes
    { entries := none, data := [], template := none, append := false,
      force := false, read := true } [] (some "keep") "" rfl

/-- C10: an input that is a single quote character (double quote, single
quote, or backtick) passes both the startswith and the endswith check on
that same character, is sliced to the empty string, and contributes exactly
one empty entry — which the writer turns into a blank line (the written
content ends in two newlines). -/
theorem single_quote_char_yields_empty_entry :
    normalize_entries "\"" = [""] ∧
    normalize_entries "\x27" = [""] ∧
    normalize_entries "\x60" = [""] ∧
    (generate none [] (some (normalize_entries "\x27")) false true none "").file =
      some (joinNL DEFAULT_ENTRIES ++ "\n\n") := by decide

end Gitignore
